import Mathlib

/-!
Verification of the AI website designer client.

Shallow embedding of the pieces of the repository that the specification
talks about:

* `services/gemini.ts` — the `bringToLife` generation client: substitution
  of the default body `"{}"`, JSON parsing, and the structural check on the
  `designs` field.
* the `LivePreview` component — the loading-progress simulator, the
  creation-parsing effect (versions array vs. legacy single `html` field),
  the version-tab selection, the download-filename derivation, and the
  embedded-prompt extraction.

Strings are modelled as `List Char` (JavaScript strings are sequences of
code units; all inputs of interest here are plain BMP text, where one
`Char` corresponds to one code unit).
-/

namespace AIWD

/-! ### Loading-progress simulator (LivePreview, loading simulation effect)

Source:
```
if (isLoading) {
  setLoadingStep(0);
  const interval = setInterval(() => {
    setLoadingStep(prev => (prev < 4 ? prev + 1 : prev));
  }, 2000);
  return () => clearInterval(interval);
} else {
  setLoadingStep(0);
}
```
-/

/-- The updater passed to `setLoadingStep` on each 2-second tick:
`prev => (prev < 4 ? prev + 1 : prev)`. -/
def loadingTick (prev : Nat) : Nat :=
  if prev < 4 then prev + 1 else prev

/-- The value `setLoadingStep` is given when `isLoading` becomes true. -/
def loadingStart : Nat := 0

/-- The value `setLoadingStep` is given when `isLoading` becomes false
(generation completed, successfully or not). -/
def loadingStop : Nat := 0

/-- The loading step after `k` ticks from the start of a generation. -/
def loadingStepAfter (k : Nat) : Nat :=
  loadingTick^[k] loadingStart

/-! ### Preview view-model (LivePreview component state)

The component state relevant to the spec's `PreviewSelection` /
`GenerationResult` view-model:

```
const [selectedVersionIndex, setSelectedVersionIndex] = useState<number | null>(null);
const [activeVersions, setActiveVersions] = useState<any[]>([]);
```
-/

/-- One generated design, as produced by the generation client and consumed
by `LivePreview` (`themeName`, `description`, `html`). -/
structure ThemeVersion where
  themeName : List Char
  description : List Char
  html : List Char
deriving DecidableEq

/-- The fields of a `Creation` object that `LivePreview` reads.  `versions`
is absent (`none`) on legacy creations; `html` is the legacy single-document
field.  JavaScript field absence is modelled with `Option`. -/
structure Creation where
  name : List Char
  versions : Option (List ThemeVersion)
  html : Option (List Char)
deriving DecidableEq

/-- The `LivePreview` state touched by the creation-parsing effect. -/
structure PreviewVM where
  activeVersions : List ThemeVersion
  selectedVersionIndex : Option Nat
deriving DecidableEq

/-- The legacy branch of the creation-parsing effect:
`else if (creation.html) { setActiveVersions([{...}]); setSelectedVersionIndex(0); }`.
An absent or empty (falsy) `html` string takes no branch and leaves the
state unchanged. -/
def legacyBranch (cr : Creation) (s : PreviewVM) : PreviewVM :=
  match cr.html with
  | some h =>
      if h.isEmpty then s
      else
        { activeVersions :=
            [{ themeName := ("Standard Theme").data
             , description := ("Original Design").data
             , html := h }]
        , selectedVersionIndex := some 0 }
  | none => s

/-- The creation-parsing effect of `LivePreview`:
```
if (creation) {
  if (creation.versions && creation.versions.length > 0) {
    setActiveVersions(creation.versions);
    setSelectedVersionIndex(null);
  } else if (creation.html) {
    setActiveVersions([{ themeName: "Standard Theme", description: "Original Design", html: creation.html }]);
    setSelectedVersionIndex(0);
  }
} else {
  setActiveVersions([]);
}
```
Note the `else` branch clears only `activeVersions`. -/
def parseCreationEffect (creation : Option Creation) (s : PreviewVM) : PreviewVM :=
  match creation with
  | some cr =>
      match cr.versions with
      | some vs =>
          if vs.length > 0 then
            { activeVersions := vs, selectedVersionIndex := none }
          else legacyBranch cr s
      | none => legacyBranch cr s
  | none => { s with activeVersions := [] }

/-- Clicking the tab for version `k` (also clicking a gallery thumbnail or
its "Preview Flow" button): `onClick=() => setSelectedVersionIndex(idx)`. -/
def selectFocus (k : Nat) (s : PreviewVM) : PreviewVM :=
  { s with selectedVersionIndex := some k }

/-- Clicking the "Compare Themes" tab: `onClick=() => setSelectedVersionIndex(null)`. -/
def showAll (s : PreviewVM) : PreviewVM :=
  { s with selectedVersionIndex := none }

/-! ### Export helpers (LivePreview: handleDownloadHtml / handleDownloadPrompt) -/

/-- Whether `c` matches the character class `[a-z0-9]` of the regex
`/[^a-z0-9]/gi`, with the `i` flag folding case (so `[a-zA-Z0-9]`). -/
def matchesAlnumCI (c : Char) : Bool :=
  (('a' ≤ c && c ≤ 'z') || ('A' ≤ c && c ≤ 'Z') || ('0' ≤ c && c ≤ '9'))

/-- `s.replace(/[^a-z0-9]/gi, '_')`: every character outside `[a-zA-Z0-9]`
becomes an underscore. -/
def replaceNonAlnum (s : List Char) : List Char :=
  s.map (fun c => if matchesAlnumCI c then c else '_')

/-- ASCII lowering of one character.  In the source, `toLowerCase()` is
applied only to the output of `replaceNonAlnum`, which is ASCII
(`[a-zA-Z0-9_]`), where JavaScript `toLowerCase` agrees with ASCII
lowering. -/
def asciiLower (c : Char) : Char :=
  if 'A' ≤ c && c ≤ 'Z' then Char.ofNat (c.toNat + 32) else c

/-- `s.toLowerCase()` on the (ASCII) result of `replaceNonAlnum`. -/
def lowerAll (s : List Char) : List Char :=
  s.map asciiLower

/-- The download attribute set by `handleDownloadHtml`:
`` `${creation.name.replace(/[^a-z0-9]/gi, '_').toLowerCase()}_${suffix}.html` ``.
Only the creation name is sanitised and lowercased; `suffix` (the theme
name at both call sites) is interpolated verbatim. -/
def htmlDownloadName (name suffix : List Char) : List Char :=
  lowerAll (replaceNonAlnum name) ++ ('_' :: suffix) ++ (".html").data

/-- The base name: `htmlDownloadName` without the `.html` extension. -/
def htmlDownloadBase (name suffix : List Char) : List Char :=
  lowerAll (replaceNonAlnum name) ++ ('_' :: suffix)

/-- The download attribute set by `handleDownloadPrompt`:
`` `PROMPT_${themeName.replace(/[^a-z0-9]/gi, '_')}.txt` `` — sanitised
but not lowercased. -/
def promptDownloadName (themeName : List Char) : List Char :=
  ("PROMPT_").data ++ replaceNonAlnum themeName ++ (".txt").data

/-! ### Embedded-prompt extraction (handleDownloadPrompt)

```
const match = html.match(/<script id="design-prompt-data" type="text\/plain">([\s\S]*?)<\/script>/);
let promptText = "";
if (match && match[1]) {
    promptText = match[1].trim();
} else {
    promptText = "Design prompt not found in the generated file.";
}
```

The regex has no alternation or classes beyond the lazy `([\s\S]*?)`, so a
match is: the leftmost occurrence of the literal opening tag that is
followed (somewhere) by the literal closing tag, capturing the shortest
text up to the first closing tag after it.
-/

/-- The literal opening tag of the regex. -/
def openTag : List Char :=
  ("<script id=\"design-prompt-data\" type=\"text/plain\">").data

/-- The literal closing tag of the regex (`<\/script>`). -/
def closeTag : List Char :=
  ("</script>").data

/-- Scan for the first occurrence of `closeTag`; return the characters
before it (the lazy capture), or `none` if the closing tag never occurs. -/
def captureUntilClose : List Char → Option (List Char)
  | [] => none
  | c :: rest =>
      if closeTag.isPrefixOf (c :: rest) then some []
      else (captureUntilClose rest).map (fun inner => c :: inner)

/-- Leftmost regex match: at the first position where `openTag` begins and a
`closeTag` follows, capture the text between them; a position where the
opening tag begins but no closing tag follows does not match, and the scan
resumes one character later, as the regex engine does. -/
def findMarkerCapture : List Char → Option (List Char)
  | [] => none
  | c :: rest =>
      if openTag.isPrefixOf (c :: rest) then
        match captureUntilClose ((c :: rest).drop openTag.length) with
        | some inner => some inner
        | none => findMarkerCapture rest
      else findMarkerCapture rest

/-- The placeholder written when the marker is missing (or captures the
empty, hence falsy, string). -/
def promptPlaceholder : List Char :=
  ("Design prompt not found in the generated file.").data

/-- JavaScript `String.prototype.trim` whitespace, restricted to the ASCII
whitespace characters (the inputs of interest contain no exotic Unicode
space). -/
def isJsWhitespace (c : Char) : Bool :=
  c = ' ' || c = '\t' || c = '\n' || c = '\r' || c = '\x0b' || c = '\x0c'

/-- `match[1].trim()`. -/
def trimChars (s : List Char) : List Char :=
  ((s.dropWhile isJsWhitespace).reverse.dropWhile isJsWhitespace).reverse

/-- The text `handleDownloadPrompt` writes to the `.txt` download: the
trimmed capture when the match succeeds with a non-empty (truthy) capture,
the placeholder otherwise. -/
def extractPromptText (html : List Char) : List Char :=
  match findMarkerCapture html with
  | some inner => if inner.isEmpty then promptPlaceholder else trimChars inner
  | none => promptPlaceholder

/-! ### Generation client (services/gemini.ts, bringToLife)

```
const jsonText = response.text || "{}";
const data = JSON.parse(jsonText);
if (!data.designs || !Array.isArray(data.designs)) {
    throw new Error("Invalid response structure");
}
return data.designs;
```
-/

/-- A parsed JSON value, as produced by `JSON.parse`. -/
inductive JValue where
  | null : JValue
  | bool : Bool → JValue
  | num : Int → JValue
  | str : List Char → JValue
  | arr : List JValue → JValue
  | obj : List (List Char × JValue) → JValue

/-- Property access `o[k]` on a parsed object whose fields are kept in
source order: with duplicate keys, `JSON.parse` keeps the last one, so the
scan prefers later entries. -/
def lookupField (k : List Char) : List (List Char × JValue) → Option JValue
  | [] => none
  | (k', v) :: rest =>
      match lookupField k rest with
      | some r => some r
      | none => if k' = k then some v else none

/-- The key `"designs"`. -/
def designsKey : List Char := ("designs").data

/-- The message of the error thrown on a failed structural check. -/
def invalidStructureMsg : List Char := ("Invalid response structure").data

/-- The validation-and-return stage of `bringToLife`, applied to the parsed
response body.  `!data.designs` rejects an absent or falsy `designs`
(arrays, even empty ones, are truthy); `!Array.isArray(data.designs)`
rejects every non-array; an array of any length is returned as-is.
Property access on `null` throws a `TypeError` instead of the structural
error; both propagate to the caller as failures. -/
def bringToLifeStep (data : JValue) : Except (List Char) (List JValue) :=
  match data with
  | JValue.null => Except.error (("TypeError: cannot read designs of null").data)
  | JValue.obj kvs =>
      match lookupField designsKey kvs with
      | some (JValue.arr xs) => Except.ok xs
      | _ => Except.error invalidStructureMsg
  | _ => Except.error invalidStructureMsg

/-- The literal `"{}"` (written with character escapes). -/
def emptyObjectText : List Char := ['\x7b', '\x7d']

/-- `response.text || "{}"`: an absent (`undefined`) or empty (falsy)
response body is replaced by the literal `"{}"`. -/
def jsonTextOf (t : Option (List Char)) : List Char :=
  match t with
  | some s => if s.isEmpty then emptyObjectText else s
  | none => emptyObjectText

/-! A model of the `JSON.parse` builtin, covering the subset needed by the
generation client: objects, arrays, strings with the single-character
escapes, integers, and the literals `null`/`true`/`false` (no `\u` escapes
and no fraction/exponent parts, which never occur in the inputs considered
here).  Recursion is by fuel; the driver supplies enough fuel for any
input, since every recursive call consumes at least one character. -/

/-- Skip JSON insignificant whitespace. -/
def skipWs (s : List Char) : List Char :=
  s.dropWhile (fun c => c = ' ' || c = '\t' || c = '\n' || c = '\r')

/-- Parse the remainder of a JSON string literal (after the opening quote),
returning its contents and the rest of the input. -/
def parseStringRest : List Char → Option (List Char × List Char)
  | [] => none
  | c :: rest =>
      if c = '"' then some ([], rest)
      else if c = '\\' then
        match rest with
        | [] => none
        | e :: rest' =>
            let dec : Option Char :=
              if e = '"' then some '"'
              else if e = '\\' then some '\\'
              else if e = '/' then some '/'
              else if e = 'n' then some '\n'
              else if e = 't' then some '\t'
              else if e = 'r' then some '\r'
              else if e = 'b' then some '\x08'
              else if e = 'f' then some '\x0c'
              else none
            match dec with
            | some d =>
                match parseStringRest rest' with
                | some (s, rem) => some (d :: s, rem)
                | none => none
            | none => none
      else
        match parseStringRest rest with
        | some (s, rem) => some (c :: s, rem)
        | none => none

/-- Parse a nonempty run of decimal digits. -/
def parseDigits (s : List Char) : Option (Nat × List Char) :=
  let digits := s.takeWhile (fun c => '0' ≤ c && c ≤ '9')
  if digits.isEmpty then none
  else some (digits.foldl (fun acc c => 10 * acc + (c.toNat - ('0').toNat)) 0,
             s.drop digits.length)

mutual

/-- Parse one JSON value at the head of the input (fuelled). -/
def parseValue : Nat → List Char → Option (JValue × List Char)
  | 0, _ => none
  | fuel + 1, s =>
      match skipWs s with
      | [] => none
      | c :: rest =>
          if c = '\x7b' then parseObjFields fuel (skipWs rest) true
          else if c = '[' then parseArrItems fuel (skipWs rest) true
          else if c = '"' then
            match parseStringRest rest with
            | some (str, rem) => some (JValue.str str, rem)
            | none => none
          else if c = '-' then
            match parseDigits rest with
            | some (n, rem) => some (JValue.num (-(n : Int)), rem)
            | none => none
          else if '0' ≤ c && c ≤ '9' then
            match parseDigits (c :: rest) with
            | some (n, rem) => some (JValue.num (n : Int), rem)
            | none => none
          else if ("null").data.isPrefixOf (c :: rest) then
            some (JValue.null, (c :: rest).drop 4)
          else if ("true").data.isPrefixOf (c :: rest) then
            some (JValue.bool true, (c :: rest).drop 4)
          else if ("false").data.isPrefixOf (c :: rest) then
            some (JValue.bool false, (c :: rest).drop 5)
          else none

/-- Parse the members of an object after its `\x7b` (fuelled); `first` is
true before the first member, so that `\x7d` may close an empty object. -/
def parseObjFields : Nat → List Char → Bool → Option (JValue × List Char)
  | 0, _, _ => none
  | fuel + 1, s, first =>
      match skipWs s with
      | [] => none
      | c :: rest =>
          if c = '\x7d' && first then some (JValue.obj [], rest)
          else
            match skipWs (c :: rest) with
            | '"' :: rest' =>
                match parseStringRest rest' with
                | some (key, rem) =>
                    match skipWs rem with
                    | ':' :: rem' =>
                        match parseValue fuel rem' with
                        | some (v, rem'') =>
                            match skipWs rem'' with
                            | ',' :: rem''' =>
                                match parseObjFields fuel rem''' false with
                                | some (JValue.obj kvs, rem4) =>
                                    some (JValue.obj ((key, v) :: kvs), rem4)
                                | _ => none
                            | '\x7d' :: rem''' =>
                                some (JValue.obj [(key, v)], rem''')
                            | _ => none
                        | none => none
                    | _ => none
                | none => none
            | _ => none

/-- Parse the items of an array after its `[` (fuelled); `first` is true
before the first item, so that `]` may close an empty array. -/
def parseArrItems : Nat → List Char → Bool → Option (JValue × List Char)
  | 0, _, _ => none
  | fuel + 1, s, first =>
      match skipWs s with
      | [] => none
      | c :: rest =>
          if c = ']' && first then some (JValue.arr [], rest)
          else
            match parseValue fuel (c :: rest) with
            | some (v, rem) =>
                match skipWs rem with
                | ',' :: rem' =>
                    match parseArrItems fuel rem' false with
                    | some (JValue.arr xs, rem'') => some (JValue.arr (v :: xs), rem'')
                    | _ => none
                | ']' :: rem' => some (JValue.arr [v], rem')
                | _ => none
            | none => none

end

/-- `JSON.parse`: parse one value and require only whitespace after it. -/
def parseJson (s : List Char) : Except (List Char) JValue :=
  match parseValue (s.length + 1) s with
  | some (v, rem) =>
      if (skipWs rem).isEmpty then Except.ok v
      else Except.error (("SyntaxError: unexpected trailing input").data)
  | none => Except.error (("SyntaxError: invalid JSON").data)

/-- The response-handling pipeline of `bringToLife`: default-substitute the
body, `JSON.parse` it, run the structural check, and return `designs`.
Parse exceptions and the structural error both propagate to the caller
(the `catch` block logs and rethrows). -/
def bringToLife (responseText : Option (List Char)) : Except (List Char) (List JValue) :=
  match parseJson (jsonTextOf responseText) with
  | Except.ok data => bringToLifeStep data
  | Except.error e => Except.error e

/-! ### Helper lemmas -/

/-- The opening tag starts with `<`. -/
lemma openTag_cons :
    openTag = '<' :: ("script id=\"design-prompt-data\" type=\"text/plain\">").data := rfl

/-- The closing tag starts with `<`. -/
lemma closeTag_cons : closeTag = '<' :: ("/script>").data := rfl

/-- A list is a Boolean prefix of itself followed by anything. -/
lemma isPrefixOf_append_self (l t : List Char) : l.isPrefixOf (l ++ t) = true :=
  List.isPrefixOf_iff_prefix.mpr (List.prefix_append l t)

/-- A Boolean prefix check fails when the heads differ. -/
lemma isPrefixOf_cons_ne_head (a c : Char) (as xs : List Char) (hc : c ≠ a) :
    (a :: as).isPrefixOf (c :: xs) = false := by
  rw [List.isPrefixOf_cons₂, beq_eq_false_iff_ne.mpr (Ne.symm hc), Bool.false_and]

/-- The lazy capture scan returns the text before the closing tag when the
text contains no `<` (so the closing tag cannot begin inside it). -/
lemma captureUntilClose_marker (inner post : List Char) (h : ∀ c ∈ inner, c ≠ '<') :
    captureUntilClose (inner ++ (closeTag ++ post)) = some inner := by
  induction inner with
  | nil =>
      rw [List.nil_append, closeTag_cons, List.cons_append, captureUntilClose,
        ← List.cons_append, ← closeTag_cons, isPrefixOf_append_self]
      simp
  | cons c tl ih =>
      have hc : c ≠ '<' := h c (List.mem_cons_self c tl)
      have hcond : closeTag.isPrefixOf (c :: (tl ++ (closeTag ++ post))) = false := by
        rw [closeTag_cons]; exact isPrefixOf_cons_ne_head _ _ _ _ hc
      rw [List.cons_append, captureUntilClose, hcond]
      simp only [Bool.false_eq_true, if_false]
      rw [ih (fun d hd => h d (List.mem_cons_of_mem c hd))]
      rfl

/-- The regex match on a string of the shape
`pre ++ openTag ++ inner ++ closeTag ++ post` captures exactly `inner`,
provided no `<` occurs in `pre` (so the opening tag cannot begin earlier)
nor in `inner` (so the capture stops exactly at the closing tag). -/
lemma findMarkerCapture_marker (pre inner post : List Char)
    (hpre : ∀ c ∈ pre, c ≠ '<') (hinner : ∀ c ∈ inner, c ≠ '<') :
    findMarkerCapture (pre ++ (openTag ++ (inner ++ (closeTag ++ post)))) = some inner := by
  induction pre with
  | nil =>
      rw [List.nil_append, openTag_cons, List.cons_append, findMarkerCapture,
        ← List.cons_append, ← openTag_cons, isPrefixOf_append_self]
      simp only [if_true]
      rw [List.drop_left, captureUntilClose_marker inner post hinner]
  | cons c pre' ih =>
      have hc : c ≠ '<' := hpre c (List.mem_cons_self c pre')
      have hcond : openTag.isPrefixOf
          (c :: (pre' ++ (openTag ++ (inner ++ (closeTag ++ post))))) = false := by
        rw [openTag_cons]; exact isPrefixOf_cons_ne_head _ _ _ _ hc
      rw [List.cons_append, findMarkerCapture, hcond]
      simp only [Bool.false_eq_true, if_false]
      exact ih (fun d hd => hpre d (List.mem_cons_of_mem c hd))

/-- When the opening tag occurs nowhere in the input, the regex does not
match. -/
lemma findMarkerCapture_eq_none (html : List Char) (h : ¬ (openTag <:+: html)) :
    findMarkerCapture html = none := by
  induction html with
  | nil => rfl
  | cons c rest ih =>
      have hp : openTag.isPrefixOf (c :: rest) = false := by
        cases hb : openTag.isPrefixOf (c :: rest) with
        | false => rfl
        | true =>
            exfalso
            obtain ⟨t, ht⟩ := List.isPrefixOf_iff_prefix.mp hb
            exact h ⟨[], t, by simpa using ht⟩
      rw [findMarkerCapture, hp]
      simp only [Bool.false_eq_true, if_false]
      exact ih (fun hinf => h (List.infix_cons hinf))

/-! ### Claim theorems -/

/-- C1 (amended): `bringToLife` succeeds exactly when the parsed response
object carries a `designs` field that is an array, and then it returns that
array unchanged — never truncated or padded — whatever its length; any
other shape fails with the structural-validation error.  (The length-3
check of the original claim is not performed.) -/
theorem bringToLife_returns_designs_array_unchanged
    (kvs : List (List Char × JValue)) (xs : List JValue) :
    (bringToLifeStep (JValue.obj kvs) = Except.ok xs
      ↔ lookupField designsKey kvs = some (JValue.arr xs))
    ∧ (lookupField designsKey kvs = none →
        bringToLifeStep (JValue.obj kvs) = Except.error invalidStructureMsg) := by
  constructor
  · simp only [bringToLifeStep]
    cases hl : lookupField designsKey kvs with
    | none => simp
    | some v => cases v <;> simp
  · intro hl
    simp [bringToLifeStep, hl]

/-- C1 (counterexample): on the response body with an empty `designs`
array, `bringToLife` returns a successful empty result — not three
variants, and no structural-validation error. -/
theorem bringToLife_accepts_empty_designs :
    bringToLife (some (("\x7b\"designs\":[]\x7d").data)) = Except.ok ([] : List JValue)
    ∧ ([] : List JValue).length = 0 :=
  ⟨rfl, rfl⟩

/-- C1 (witness): a concrete object whose `designs` array (of length one)
is returned exactly as parsed. -/
theorem bringToLife_returns_designs_array_unchanged_witness :
    bringToLifeStep (JValue.obj [(designsKey, JValue.arr [JValue.num 7])])
      = Except.ok [JValue.num 7]
    ∧ bringToLifeStep (JValue.obj []) = Except.error invalidStructureMsg :=
  ⟨(bringToLife_returns_designs_array_unchanged
      [(designsKey, JValue.arr [JValue.num 7])] [JValue.num 7]).1.mpr rfl,
   (bringToLife_returns_designs_array_unchanged [] []).2 rfl⟩

/-- C2 (amended): the loading step is `min k 4` after `k` ticks — it rises
by one per tick and is clamped at 4 (the value at which all four labelled
steps render as completed), and it is reset to 0 both when a generation
starts and when it completes. -/
theorem loading_step_clamped_at_four :
    (∀ k : Nat, loadingStepAfter k = min k 4) ∧ loadingStart = 0 ∧ loadingStop = 0 := by
  refine ⟨?_, rfl, rfl⟩
  intro k
  induction k with
  | zero => rfl
  | succ n ih =>
      rw [loadingStepAfter, Function.iterate_succ_apply', ← loadingStepAfter, ih]
      simp only [loadingTick]
      split <;> omega

/-- C2 (counterexample): after four ticks the step is 4, not clamped at 3
as the claim states. -/
theorem loading_step_reaches_four :
    loadingStepAfter 4 = 4 ∧ ¬ loadingStepAfter 4 ≤ 3 := by decide

/-- C4 (amended): resetting (the creation becoming `null`) clears the
stored theme variants but leaves the preview selection untouched; the
selection is only re-initialised when the next creation is ingested. -/
theorem reset_clears_versions_keeps_selection (s : PreviewVM) :
    parseCreationEffect none s =
      { activeVersions := [], selectedVersionIndex := s.selectedVersionIndex } := rfl

/-- C4 (counterexample): from a state focused on index 1, reset leaves the
selection at index 1 instead of clearing it. -/
theorem reset_leaves_selection_set :
    (parseCreationEffect none
        { activeVersions := [], selectedVersionIndex := some 1 }).selectedVersionIndex
      ≠ none := by decide

/-- C4 (witness): the amended theorem at a concrete focused state. -/
theorem reset_clears_versions_keeps_selection_witness :
    parseCreationEffect none { activeVersions := [], selectedVersionIndex := some 1 }
      = { activeVersions := [], selectedVersionIndex := some 1 } :=
  reset_clears_versions_keeps_selection
    { activeVersions := [], selectedVersionIndex := some 1 }

/-- C6 (amended): a legacy creation (no `versions` array) whose `html`
field is a non-empty string is normalised into the one-element result
wrapping that html, with the selection set to `Focused(0)`; an empty
`html` string is falsy and leaves the state unchanged instead. -/
theorem legacy_html_normalized_focused_zero (cr : Creation) (s : PreviewVM) (h : List Char)
    (hv : cr.versions = none) (hh : cr.html = some h) (hne : h ≠ []) :
    parseCreationEffect (some cr) s =
      { activeVersions :=
          [{ themeName := ("Standard Theme").data
           , description := ("Original Design").data
           , html := h }]
      , selectedVersionIndex := some 0 } := by
  have hemp : h.isEmpty = false := by
    cases h with
    | nil => exact absurd rfl hne
    | cons a t => rfl
  simp [parseCreationEffect, legacyBranch, hv, hh, hemp]

/-- C6 (counterexample): a creation with no `versions` array and an empty
`html` string is a legacy single-document input in the claim's sense, yet
it is not normalised: the state is left unchanged — no one-element result
and no `Focused(0)` selection. -/
theorem legacy_empty_html_not_normalized :
    (parseCreationEffect
        (some { name := ("x").data, versions := none, html := some [] })
        { activeVersions := [], selectedVersionIndex := none }).selectedVersionIndex
      ≠ some 0
    ∧ (parseCreationEffect
        (some { name := ("x").data, versions := none, html := some [] })
        { activeVersions := [], selectedVersionIndex := none }).activeVersions.length
      ≠ 1 := by decide

/-- C6 (witness): the amended theorem at a concrete legacy creation. -/
theorem legacy_html_normalized_focused_zero_witness :
    parseCreationEffect
        (some { name := ("x").data, versions := none, html := some (("<p>hi</p>").data) })
        { activeVersions := [], selectedVersionIndex := none } =
      { activeVersions :=
          [{ themeName := ("Standard Theme").data
           , description := ("Original Design").data
           , html := ("<p>hi</p>").data }]
      , selectedVersionIndex := some 0 } :=
  legacy_html_normalized_focused_zero _ _ _ rfl rfl (by decide)

/-- C7: whenever a creation carrying a non-empty `versions` array is
ingested, the stored variants become that array and the selection becomes
`AllThemes` (`null`), whatever the previous state was. -/
theorem new_versions_select_all_themes (cr : Creation) (s : PreviewVM)
    (vs : List ThemeVersion) (hv : cr.versions = some vs) (hne : vs ≠ []) :
    parseCreationEffect (some cr) s =
      { activeVersions := vs, selectedVersionIndex := none } := by
  have hpos : vs.length > 0 := List.length_pos.mpr hne
  simp [parseCreationEffect, hv, hpos]

/-- C7 (witness): a concrete one-theme result arriving over a focused
state resets the selection to `AllThemes`. -/
theorem new_versions_select_all_themes_witness :
    parseCreationEffect
        (some { name := []
              , versions := some [{ themeName := [], description := [], html := [] }]
              , html := none })
        { activeVersions := [], selectedVersionIndex := some 2 } =
      { activeVersions := [{ themeName := [], description := [], html := [] }]
      , selectedVersionIndex := none } :=
  new_versions_select_all_themes _ _ _ rfl (by decide)

/-- C8: selecting the tab of a valid index `k` moves the selection to
`Focused(k)` and selecting the compare tab moves it to `AllThemes`;
neither transition changes the stored theme variants. -/
theorem tab_selection_preserves_versions (s : PreviewVM) (k : Nat)
    (hk : k < s.activeVersions.length) :
    ((selectFocus k s).selectedVersionIndex = some k
      ∧ (selectFocus k s).activeVersions = s.activeVersions)
    ∧ ((showAll s).selectedVersionIndex = none
      ∧ (showAll s).activeVersions = s.activeVersions) :=
  ⟨⟨rfl, rfl⟩, ⟨rfl, rfl⟩⟩

/-- C8 (witness): the transitions at a concrete one-theme state. -/
theorem tab_selection_preserves_versions_witness :
    ((selectFocus 0
        { activeVersions := [{ themeName := [], description := [], html := [] }]
        , selectedVersionIndex := none }).selectedVersionIndex = some 0
      ∧ (selectFocus 0
          { activeVersions := [{ themeName := [], description := [], html := [] }]
          , selectedVersionIndex := none }).activeVersions
        = [{ themeName := [], description := [], html := [] }])
    ∧ ((showAll
          { activeVersions := [{ themeName := [], description := [], html := [] }]
          , selectedVersionIndex := none }).selectedVersionIndex = none
      ∧ (showAll
          { activeVersions := [{ themeName := [], description := [], html := [] }]
          , selectedVersionIndex := none }).activeVersions
        = [{ themeName := [], description := [], html := [] }]) :=
  tab_selection_preserves_versions
    { activeVersions := [{ themeName := [], description := [], html := [] }]
    , selectedVersionIndex := none } 0 (by decide)

/-- C3 (amended): the download filenames are pure functions of the
creation name and theme name, but only the creation name is
underscore-sanitised and lowercased; the theme name is appended verbatim
in the html filename and sanitised without lowercasing in the prompt
filename.  For creation `"My Café!"` and theme `"Dark Mode"` the base
name is `"my_caf___Dark Mode"`. -/
theorem download_filenames_deterministic_values :
    htmlDownloadBase (("My Café!").data) (("Dark Mode").data) = ("my_caf___Dark Mode").data
    ∧ htmlDownloadName (("My Café!").data) (("Dark Mode").data)
      = ("my_caf___Dark Mode.html").data
    ∧ promptDownloadName (("Dark Mode").data) = ("PROMPT_Dark_Mode.txt").data :=
  ⟨rfl, rfl, rfl⟩

/-- C3 (counterexample): the derived base name for `"My Café!"` /
`"Dark Mode"` is not the claimed `"my_caf__dark_mode"`. -/
theorem download_filename_differs_from_claim :
    htmlDownloadBase (("My Café!").data) (("Dark Mode").data)
      ≠ ("my_caf__dark_mode").data := by decide

/-- C5: for markup of the shape `pre ++ openTag ++ inner ++ closeTag ++
post` whose prefix and inner text contain no `<` (so the written marker is
the one the regex finds), the export produces exactly the inner text with
surrounding whitespace trimmed; for markup in which the opening tag occurs
nowhere, it produces the fixed placeholder — and, being a total function,
it never throws. -/
theorem export_prompt_marker_extraction :
    (∀ pre inner post : List Char,
        (∀ c ∈ pre, c ≠ '<') → (∀ c ∈ inner, c ≠ '<') → inner ≠ [] →
        extractPromptText (pre ++ openTag ++ inner ++ closeTag ++ post) = trimChars inner)
    ∧ (∀ html : List Char, ¬ (openTag <:+: html) →
        extractPromptText html = promptPlaceholder) := by
  constructor
  · intro pre inner post hpre hinner hne
    have hassoc : pre ++ openTag ++ inner ++ closeTag ++ post
        = pre ++ (openTag ++ (inner ++ (closeTag ++ post))) := by
      simp [List.append_assoc]
    have hemp : inner.isEmpty = false := by
      cases inner with
      | nil => exact absurd rfl hne
      | cons a t => rfl
    rw [extractPromptText, hassoc, findMarkerCapture_marker pre inner post hpre hinner]
    simp [hemp]
  · intro html h
    rw [extractPromptText, findMarkerCapture_eq_none html h]

/-- C5 (witness): a concrete marker is extracted and trimmed; concrete
markup without the marker yields the placeholder. -/
theorem export_prompt_marker_extraction_witness :
    extractPromptText
        (([] : List Char) ++ openTag ++ ("  PROMPT_X ").data ++ closeTag ++ ([] : List Char))
      = ("PROMPT_X").data
    ∧ extractPromptText (("plain page").data) = promptPlaceholder :=
  ⟨(export_prompt_marker_extraction.1 [] (("  PROMPT_X ").data) []
      (by decide) (by decide) (by decide)).trans (by decide),
   export_prompt_marker_extraction.2 (("plain page").data) (by decide)⟩

/-- C9: a marker whose inner text is empty captures the empty — hence
falsy — string, which the export treats like a missing marker: it produces
the placeholder, not the empty string. -/
theorem empty_capture_yields_placeholder (pre post : List Char)
    (hpre : ∀ c ∈ pre, c ≠ '<') :
    extractPromptText (pre ++ openTag ++ closeTag ++ post) = promptPlaceholder := by
  have hassoc : pre ++ openTag ++ closeTag ++ post
      = pre ++ (openTag ++ (([] : List Char) ++ (closeTag ++ post))) := by
    simp [List.append_assoc]
  rw [extractPromptText, hassoc,
    findMarkerCapture_marker pre [] post hpre (by simp)]
  rfl

/-- C9 (witness): a concrete empty-inner marker yields the placeholder. -/
theorem empty_capture_yields_placeholder_witness :
    extractPromptText (("x").data ++ openTag ++ closeTag ++ ("y").data)
      = promptPlaceholder :=
  empty_capture_yields_placeholder (("x").data) (("y").data) (by decide)

/-- C10: an absent or empty response body is replaced by the literal
`"{}"`, which parses as the empty object, so `bringToLife` fails with the
structural error `"Invalid response structure"` — not with a JSON parse
exception, and never with a successful result. -/
theorem empty_response_structural_error :
    jsonTextOf none = emptyObjectText
    ∧ jsonTextOf (some []) = emptyObjectText
    ∧ parseJson emptyObjectText = Except.ok (JValue.obj [])
    ∧ bringToLife none = Except.error invalidStructureMsg
    ∧ bringToLife (some []) = Except.error invalidStructureMsg :=
  ⟨rfl, rfl, rfl, rfl, rfl⟩

end AIWD
